import Mathlib

/-!
Verification of the magic ring buffer (`VoodooBuffer`, src/lib.rs).

The buffer owns an `N`-byte physical backing mapped twice, back to back, into
a `2N`-byte virtual window.  We embed the buffer shallowly: the raw pointer
`addr` is replaced by the physical contents `data` of the backing, and a read
through virtual offset `a` of the doubly mapped window yields `data (a % len)`
(the aliasing invariant of the double mapping).  Bytes are modelled as `Nat`
values; `usize` values are modelled as `Nat`, with subtraction given the
overflow-checked semantics that Rust mandates for the crate's own test
profile: underflow is a program error and raises the standard overflow
message.  A Rust panic is modelled as the `Except.error` outcome carrying the
panic message, so every fallible indexing operation returns
`Except String Slice`.
-/

/-- Error value returned by `VoodooBuffer::new` (src/lib.rs, `BufferError`). -/
structure BufferError where
  msg : String
deriving DecidableEq

/-- The buffer object (src/lib.rs, `VoodooBuffer`): capacity `len`, the
precomputed bitmask `mask`, and — in place of the raw base pointer `addr` —
the physical contents `data` of the `len`-byte backing. -/
structure VoodooBuffer where
  len : Nat
  mask : Nat
  data : Nat → Nat

/-- Reading the byte at virtual offset `a` of the doubly mapped window:
offsets `a ∈ [0, 2·len)` alias the physical byte `a % len`. -/
def VoodooBuffer.readAddr (b : VoodooBuffer) (a : Nat) : Nat :=
  b.data (a % b.len)

/-- Writing the byte at virtual offset `a` of the doubly mapped window
stores into the physical byte `a % len`. -/
def VoodooBuffer.writeAddr (b : VoodooBuffer) (a v : Nat) : VoodooBuffer :=
  { b with data := Function.update b.data (a % b.len) v }

/-- `VoodooBuffer::fast_mod`: `v & self.mask`. -/
def VoodooBuffer.fast_mod (b : VoodooBuffer) (v : Nat) : Nat :=
  v &&& b.mask

/-- `VoodooBuffer::len`: returns the capacity field. -/
def VoodooBuffer.length (b : VoodooBuffer) : Nat :=
  b.len

/-- A byte slice handed out by the addressing surface: its base-relative
start offset together with the bytes it covers, read through the doubly
mapped window (`VoodooBuffer::as_slice`: the `size` bytes from
`addr + offset`). -/
structure Slice where
  start : Nat
  bytes : List Nat
deriving DecidableEq

/-- `VoodooBuffer::as_slice(offset, len)`: the `len` bytes starting at
virtual offset `offset`. -/
def VoodooBuffer.as_slice (b : VoodooBuffer) (offset size : Nat) : Slice :=
  ⟨offset, (List.range size).map fun k => b.readAddr (offset + k)⟩

/-- `VoodooBuffer::as_slice_mut(offset, len)`: same addressing as
`as_slice`, returning the mutable view of the same region. -/
def VoodooBuffer.as_slice_mut (b : VoodooBuffer) (offset size : Nat) : Slice :=
  ⟨offset, (List.range size).map fun k => b.readAddr (offset + k)⟩

/-- `Index<usize>`: read the byte at `addr + fast_mod(index)`. -/
def VoodooBuffer.index (b : VoodooBuffer) (i : Nat) : Nat :=
  b.readAddr (b.fast_mod i)

/-- `IndexMut<usize>` used as an assignment `buf[i] = v`: write the byte at
`addr + fast_mod(index)`. -/
def VoodooBuffer.index_mut_set (b : VoodooBuffer) (i v : Nat) : VoodooBuffer :=
  b.writeAddr (b.fast_mod i) v

/-- Rust `usize` subtraction under overflow-checked semantics: underflow is
a program error raising the standard overflow panic message. -/
def checkedSub (a b : Nat) : Except String Nat :=
  if a < b then .error "attempt to subtract with overflow" else .ok (a - b)

/-- `Index<Range<usize>>`: empty slice when `start > end`, panic when the
requested length exceeds the capacity, otherwise the slice of length
`end - start` at `fast_mod(start)`. -/
def VoodooBuffer.index_range (b : VoodooBuffer) (start stop : Nat) :
    Except String Slice :=
  if start > stop then
    .ok ⟨0, []⟩
  else
    let size := stop - start
    if size > b.len then
      .error "out of bounds"
    else
      .ok (b.as_slice (b.fast_mod start) size)

/-- `IndexMut<Range<usize>>`: same body as the immutable variant, through
`as_slice_mut`. -/
def VoodooBuffer.index_range_mut (b : VoodooBuffer) (start stop : Nat) :
    Except String Slice :=
  if start > stop then
    .ok ⟨0, []⟩
  else
    let size := stop - start
    if size > b.len then
      .error "out of bounds"
    else
      .ok (b.as_slice_mut (b.fast_mod start) size)

/-- `Index<RangeTo<usize>>`: `start = end - len` (checked), then the full
`len` bytes at `fast_mod(start)`. -/
def VoodooBuffer.index_range_to (b : VoodooBuffer) (stop : Nat) :
    Except String Slice :=
  match checkedSub stop b.len with
  | .error e => .error e
  | .ok start => .ok (b.as_slice (b.fast_mod start) b.len)

/-- `IndexMut<RangeTo<usize>>`: same addressing through `as_slice_mut`. -/
def VoodooBuffer.index_range_to_mut (b : VoodooBuffer) (stop : Nat) :
    Except String Slice :=
  match checkedSub stop b.len with
  | .error e => .error e
  | .ok start => .ok (b.as_slice_mut (b.fast_mod start) b.len)

/-- `Index<RangeToInclusive<usize>>`: `start = end - len + 1`, where the
subtraction `end - len` is evaluated first (checked), then the full `len`
bytes at `fast_mod(start)`. -/
def VoodooBuffer.index_range_to_inclusive (b : VoodooBuffer) (stop : Nat) :
    Except String Slice :=
  match checkedSub stop b.len with
  | .error e => .error e
  | .ok s => .ok (b.as_slice (b.fast_mod (s + 1)) b.len)

/-- `IndexMut<RangeToInclusive<usize>>`: same addressing through
`as_slice_mut`. -/
def VoodooBuffer.index_range_to_inclusive_mut (b : VoodooBuffer) (stop : Nat) :
    Except String Slice :=
  match checkedSub stop b.len with
  | .error e => .error e
  | .ok s => .ok (b.as_slice_mut (b.fast_mod (s + 1)) b.len)

/-- `Index<RangeFrom<usize>>`: the full `len` bytes at `fast_mod(start)`. -/
def VoodooBuffer.index_range_from (b : VoodooBuffer) (start : Nat) : Slice :=
  b.as_slice (b.fast_mod start) b.len

/-- `IndexMut<RangeFrom<usize>>`: same addressing through `as_slice_mut`. -/
def VoodooBuffer.index_range_from_mut (b : VoodooBuffer) (start : Nat) : Slice :=
  b.as_slice_mut (b.fast_mod start) b.len

/-- `Index<RangeFull>`: the full `len` bytes at offset `0`. -/
def VoodooBuffer.index_range_full (b : VoodooBuffer) : Slice :=
  b.as_slice 0 b.len

/-- `IndexMut<RangeFull>`: same addressing through `as_slice_mut`. -/
def VoodooBuffer.index_range_full_mut (b : VoodooBuffer) : Slice :=
  b.as_slice_mut 0 b.len

/-- `Deref for VoodooBuffer`: `as_slice(0, len)`. -/
def VoodooBuffer.deref (b : VoodooBuffer) : Slice :=
  b.as_slice 0 b.len

/-- `DerefMut for VoodooBuffer`: `as_slice_mut(0, len)`. -/
def VoodooBuffer.deref_mut (b : VoodooBuffer) : Slice :=
  b.as_slice_mut 0 b.len

/-- `usize::is_power_of_two` from the Rust standard library, called by
`VoodooBuffer::new`.  The standard library guarantees `true` exactly for the
values `2^k`; we use the branch-free single-bit characterisation
`n ≠ 0 ∧ n & (n - 1) = 0`, proved below to coincide with `∃ k, n = 2 ^ k`. -/
def is_power_of_two (n : Nat) : Bool :=
  n != 0 && (n &&& (n - 1)) == 0

/-- Modelled from the spec: the platform mapping backend
(`voodoo_buf_min_len` / `voodoo_buf_alloc`, which live in the per-OS modules
not present in this tree).  `min_len` is the allocation granularity the
capacity must divide into; `alloc len` either fails with a `BufferError` or
yields the initial physical contents of the freshly mapped `len`-byte
backing. -/
structure Backend where
  min_len : Nat
  alloc : Nat → Except BufferError (Nat → Nat)

/-- `VoodooBuffer::new`: validate the requested length (nonzero, power of
two, multiple of the backend granularity), then allocate through the backend
and wrap the result, surfacing allocation errors verbatim. -/
def VoodooBuffer.new (be : Backend) (len : Nat) :
    Except BufferError VoodooBuffer :=
  if len = 0 then
    .error ⟨"len must be greater than 0"⟩
  else if ! is_power_of_two len then
    .error ⟨"len must be power of two"⟩
  else if len % be.min_len ≠ 0 then
    .error ⟨"len must be page aligned, " ++ toString be.min_len⟩
  else
    match be.alloc len with
    | .error e => .error e
    | .ok mem => .ok { len := len, mask := len - 1, data := mem }

/-- The invariants `VoodooBuffer::new` establishes and every addressing
operation relies on: a positive power-of-two capacity with `mask = len - 1`. -/
def VoodooBuffer.Valid (b : VoodooBuffer) : Prop :=
  0 < b.len ∧ (∃ k, b.len = 2 ^ k) ∧ b.mask = b.len - 1

theorem is_power_of_two_iff (n : Nat) :
    is_power_of_two n = true ↔ ∃ k, n = 2 ^ k := by
  constructor
  · intro h
    simp only [is_power_of_two, Bool.and_eq_true, bne_iff_ne, ne_eq,
      beq_iff_eq] at h
    obtain ⟨hn, hand⟩ := h
    refine ⟨n.log2, ?_⟩
    by_contra hne
    have hle : 2 ^ n.log2 ≤ n := Nat.log2_self_le hn
    have hlt : n < 2 ^ (n.log2 + 1) := Nat.lt_log2_self
    have hlt' : 2 ^ n.log2 < n := lt_of_le_of_ne hle (fun h => hne h.symm)
    have hdiv : n / 2 ^ n.log2 = 1 := by
      apply Nat.div_eq_of_lt_le (by simpa using hle)
      simpa [Nat.pow_succ, Nat.mul_comm] using hlt
    have hdiv' : (n - 1) / 2 ^ n.log2 = 1 := by
      apply Nat.div_eq_of_lt_le
      · simpa using Nat.le_sub_one_of_lt hlt'
      · have : n - 1 < 2 ^ (n.log2 + 1) :=
          lt_of_le_of_lt (Nat.sub_le n 1) hlt
        simpa [Nat.pow_succ, Nat.mul_comm] using this
    have hbit : (n &&& (n - 1)).testBit n.log2 = true := by
      rw [Nat.testBit_and]
      simp [Nat.testBit_to_div_mod, hdiv, hdiv']
    rw [hand] at hbit
    simp [Nat.zero_testBit] at hbit
  · rintro ⟨k, rfl⟩
    simp [is_power_of_two, Nat.and_pow_two_sub_one_eq_mod, Nat.pos_iff_ne_zero.mp (Nat.two_pow_pos k)]

theorem VoodooBuffer.Valid.and_mask {b : VoodooBuffer} (hb : b.Valid)
    (w : Nat) : w &&& (b.len - 1) = w % b.len := by
  obtain ⟨-, ⟨k, hk⟩, -⟩ := hb
  rw [hk, Nat.and_pow_two_sub_one_eq_mod]

theorem VoodooBuffer.Valid.fast_mod_eq {b : VoodooBuffer} (hb : b.Valid)
    (w : Nat) : b.fast_mod w = w % b.len := by
  rw [VoodooBuffer.fast_mod, hb.2.2, hb.and_mask]

/-- Success of `VoodooBuffer::new` establishes the addressing invariants. -/
theorem VoodooBuffer.new_ok_valid {be : Backend} {n : Nat} {b : VoodooBuffer}
    (h : VoodooBuffer.new be n = .ok b) : b.Valid := by
  unfold VoodooBuffer.new at h
  split at h
  · exact absurd h (by simp)
  · split at h
    · exact absurd h (by simp)
    · split at h
      · exact absurd h (by simp)
      · rename_i hz hpow hmod
        revert h
        split
        · intro h; exact absurd h (by simp)
        · intro h
          obtain rfl : b = ⟨n, n - 1, _⟩ := (Except.ok.injEq _ _ ▸ h).symm
          refine ⟨Nat.pos_of_ne_zero hz, ?_, rfl⟩
          exact (is_power_of_two_iff n).1 (by simpa using hpow)

/-- A sample valid buffer used to instantiate hypotheses concretely. -/
def bufEx : VoodooBuffer :=
  ⟨16, 15, fun _ => 0⟩

theorem bufEx_valid : bufEx.Valid :=
  ⟨by decide, ⟨4, rfl⟩, rfl⟩

theorem append_left_ne_empty {s t : String} (hs : s.length ≠ 0) :
    s ++ t ≠ "" := by
  intro h
  have hlen := congrArg String.length h
  rw [String.length_append] at hlen
  have h0 : ("" : String).length = 0 := rfl
  omega

/-- C1: for every buffer successfully created with capacity `N`, single-byte
reads and writes at offset `i` access the byte at base-relative position
`i & (N - 1)`; writing `v` at `i ∈ [0, N)` makes index `i + N` read as `v`;
and every `i ≥ 0` is accepted (the operations are total). -/
theorem single_byte_aliasing (be : Backend) (n : Nat) (b : VoodooBuffer)
    (hnew : VoodooBuffer.new be n = .ok b) (i v : Nat) :
    b.index i = b.readAddr (i &&& (b.len - 1)) ∧
    b.index_mut_set i v = b.writeAddr (i &&& (b.len - 1)) v ∧
    (i < b.len → (b.index_mut_set i v).index (i + b.len) = v) := by
  have hb := VoodooBuffer.new_ok_valid hnew
  refine ⟨?_, ?_, ?_⟩
  · rw [VoodooBuffer.index, hb.fast_mod_eq, VoodooBuffer.readAddr,
      VoodooBuffer.readAddr, hb.and_mask]
  · rw [VoodooBuffer.index_mut_set, hb.fast_mod_eq, VoodooBuffer.writeAddr,
      VoodooBuffer.writeAddr, hb.and_mask]
  · intro hi
    simp only [VoodooBuffer.index_mut_set, VoodooBuffer.writeAddr,
      VoodooBuffer.index, VoodooBuffer.readAddr, VoodooBuffer.fast_mod,
      hb.2.2]
    rw [hb.and_mask, hb.and_mask, Nat.mod_mod, Nat.mod_mod,
      Nat.add_mod_right, Nat.mod_eq_of_lt hi]
    exact Function.update_same i v b.data

/-- C1 at a concrete input: buffer of capacity 16, write 171 at offset 5,
read it back at offset 21. -/
theorem single_byte_aliasing_check :
    bufEx.index 5 = bufEx.readAddr (5 &&& (bufEx.len - 1)) ∧
    bufEx.index_mut_set 5 171 = bufEx.writeAddr (5 &&& (bufEx.len - 1)) 171 ∧
    (bufEx.index_mut_set 5 171).index (5 + bufEx.len) = 171 := by
  have h := single_byte_aliasing ⟨16, fun _ => .ok (fun _ => 0)⟩ 16 bufEx
    rfl 5 171
  exact ⟨h.1, h.2.1, h.2.2 (by decide)⟩

/-- C2: for a buffer of capacity `N` and a range `[a, c)` with `a ≤ c` and
`c - a ≤ N`, indexing returns a slice of length `c - a` starting at
base-relative position `a & (N - 1)` whose `k`-th byte equals the
single-index read at offset `a + k`. -/
theorem range_slice_contiguity (b : VoodooBuffer) (hb : b.Valid) (a c : Nat)
    (h1 : a ≤ c) (h2 : c - a ≤ b.len) :
    ∃ s, b.index_range a c = .ok s ∧ s.start = a &&& (b.len - 1) ∧
      s.bytes.length = c - a ∧
      ∀ k, k < c - a → s.bytes[k]? = some (b.index (a + k)) := by
  refine ⟨b.as_slice (b.fast_mod a) (c - a), ?_, ?_, ?_, ?_⟩
  · simp only [VoodooBuffer.index_range]
    rw [if_neg (by omega), if_neg (by omega)]
  · simp only [VoodooBuffer.as_slice]
    rw [hb.fast_mod_eq, hb.and_mask]
  · simp [VoodooBuffer.as_slice]
  · intro k hk
    simp only [VoodooBuffer.as_slice]
    rw [List.getElem?_map, List.getElem?_range hk]
    simp only [Option.map_some']
    rw [VoodooBuffer.index, VoodooBuffer.readAddr, VoodooBuffer.readAddr,
      hb.fast_mod_eq, hb.fast_mod_eq, Nat.mod_add_mod, Nat.mod_mod]

/-- C2 at a concrete input: capacity 16, the wrapping range `[14, 18)`. -/
theorem range_slice_contiguity_check :
    ∃ s, bufEx.index_range 14 18 = .ok s ∧
      s.start = 14 &&& (bufEx.len - 1) ∧ s.bytes.length = 18 - 14 ∧
      ∀ k, k < 18 - 14 → s.bytes[k]? = some (bufEx.index (14 + k)) :=
  range_slice_contiguity bufEx bufEx_valid 14 18 (by decide) (by decide)

/-- C3: `new(len)` errors, without consulting the allocator, exactly when
`len` is zero, not a power of two, or not a multiple of the backend
granularity, each time with a nonempty human-readable message; for valid
`len` it invokes the backend allocation and wraps its result, surfacing
allocation errors verbatim. -/
theorem new_validation (m : Nat) (_hm : 0 < m)
    (al al' : Nat → Except BufferError (Nat → Nat)) (n : Nat) :
    ((n = 0 ∨ (¬ ∃ k, n = 2 ^ k) ∨ n % m ≠ 0) →
      (∃ msg, msg ≠ "" ∧ VoodooBuffer.new ⟨m, al⟩ n = .error ⟨msg⟩) ∧
        VoodooBuffer.new ⟨m, al⟩ n = VoodooBuffer.new ⟨m, al'⟩ n) ∧
    ((n ≠ 0 ∧ (∃ k, n = 2 ^ k) ∧ n % m = 0) →
      VoodooBuffer.new ⟨m, al⟩ n =
        match al n with
        | .error e => .error e
        | .ok mem => .ok ⟨n, n - 1, mem⟩) := by
  constructor
  · intro h
    by_cases hz : n = 0
    · refine ⟨⟨"len must be greater than 0", by decide, ?_⟩, ?_⟩ <;>
        simp [VoodooBuffer.new, hz]
    · by_cases hp : is_power_of_two n
      · have hpow : ∃ k, n = 2 ^ k := (is_power_of_two_iff n).1 hp
        have hmod : n % m ≠ 0 := by
          rcases h with h | h | h
          · exact absurd h hz
          · exact absurd hpow h
          · exact h
        refine ⟨⟨"len must be page aligned, " ++ toString m,
          append_left_ne_empty (by decide), ?_⟩, ?_⟩ <;>
          simp [VoodooBuffer.new, hz, hp, hmod]
      · refine ⟨⟨"len must be power of two", by decide, ?_⟩, ?_⟩ <;>
          simp [VoodooBuffer.new, hz, hp]
  · rintro ⟨hz, hpow, hmod⟩
    have hp : is_power_of_two n = true := (is_power_of_two_iff n).2 hpow
    simp [VoodooBuffer.new, hz, hp, hmod]

/-- C3 at concrete inputs: granularity 4096; `new 24` is rejected (not a
power of two) independently of the allocator, and `new 4096` wraps the
allocator's result. -/
theorem new_validation_check :
    ((∃ msg, msg ≠ "" ∧
        VoodooBuffer.new ⟨4096, fun _ => .ok (fun _ => 0)⟩ 24 =
          .error ⟨msg⟩) ∧
      VoodooBuffer.new ⟨4096, fun _ => .ok (fun _ => 0)⟩ 24 =
        VoodooBuffer.new ⟨4096, fun _ => .error ⟨"mapping failed"⟩⟩ 24) ∧
    VoodooBuffer.new ⟨4096, fun _ => .ok (fun _ => 0)⟩ 4096 =
      .ok ⟨4096, 4095, fun _ => 0⟩ :=
  ⟨(new_validation 4096 (by decide) (fun _ => .ok (fun _ => 0))
      (fun _ => .error ⟨"mapping failed"⟩) 24).1
      (Or.inr (Or.inl (fun hp =>
        absurd ((is_power_of_two_iff 24).2 hp) (by decide)))),
   ((new_validation 4096 (by decide) (fun _ => .ok (fun _ => 0))
      (fun _ => .error ⟨"mapping failed"⟩) 4096).2
      ⟨by decide, ⟨12, rfl⟩, by decide⟩).trans rfl⟩

/-- C4 counterexample: for the valid buffer of capacity 16 and `end = 15`,
which satisfies the claim's bound `end ≥ N - 1`, `buf[..=end]` does not
return a slice: the subtraction `end - len` underflows and the operation
panics with the standard overflow message. -/
theorem range_to_inclusive_boundary_underflow :
    bufEx.Valid ∧ bufEx.len - 1 ≤ 15 ∧
    bufEx.index_range_to_inclusive 15 =
      .error "attempt to subtract with overflow" :=
  ⟨bufEx_valid, by decide, rfl⟩

/-- C4 (amended): for a valid buffer of capacity `N`, `buf[..end]` with
`end ≥ N` returns a slice of length `N` starting at `(end - N) & (N - 1)`,
and `buf[..=end]` likewise requires `end ≥ N` (not `N - 1`: at
`end = N - 1` the subtraction `end - N` underflows and the operation
panics), returning a slice of length `N` starting at
`(end - N + 1) & (N - 1)`. -/
theorem range_to_full_window (b : VoodooBuffer) (hb : b.Valid) (e : Nat)
    (he : b.len ≤ e) :
    (∃ s, b.index_range_to e = .ok s ∧
      s.start = (e - b.len) &&& (b.len - 1) ∧ s.bytes.length = b.len) ∧
    (∃ s, b.index_range_to_inclusive e = .ok s ∧
      s.start = (e - b.len + 1) &&& (b.len - 1) ∧ s.bytes.length = b.len) := by
  have hcs : checkedSub e b.len = .ok (e - b.len) := by
    rw [checkedSub, if_neg (by omega)]
  constructor
  · refine ⟨b.as_slice (b.fast_mod (e - b.len)) b.len, ?_, ?_, ?_⟩
    · simp only [VoodooBuffer.index_range_to, hcs]
    · simp only [VoodooBuffer.as_slice]
      rw [hb.fast_mod_eq, hb.and_mask]
    · simp [VoodooBuffer.as_slice]
  · refine ⟨b.as_slice (b.fast_mod (e - b.len + 1)) b.len, ?_, ?_, ?_⟩
    · simp only [VoodooBuffer.index_range_to_inclusive, hcs]
    · simp only [VoodooBuffer.as_slice]
      rw [hb.fast_mod_eq, hb.and_mask]
    · simp [VoodooBuffer.as_slice]

/-- C4 (amended) at a concrete input: capacity 16, `end = 20`. -/
theorem range_to_full_window_check :
    (∃ s, bufEx.index_range_to 20 = .ok s ∧
      s.start = (20 - bufEx.len) &&& (bufEx.len - 1) ∧
      s.bytes.length = bufEx.len) ∧
    (∃ s, bufEx.index_range_to_inclusive 20 = .ok s ∧
      s.start = (20 - bufEx.len + 1) &&& (bufEx.len - 1) ∧
      s.bytes.length = bufEx.len) :=
  range_to_full_window bufEx bufEx_valid 20 (by decide)

/-- C5: `buf[..end]` with `end < N`, and `buf[..=end]` with `end < N - 1`,
are programmer errors: the underflowing subtraction raises the overflow
panic instead of silently producing a masked arbitrary offset. -/
theorem range_to_underflow_is_error (b : VoodooBuffer) (e : Nat) :
    (e < b.len →
      b.index_range_to e = .error "attempt to subtract with overflow") ∧
    (e < b.len - 1 →
      b.index_range_to_inclusive e =
        .error "attempt to subtract with overflow") := by
  constructor
  · intro h
    simp only [VoodooBuffer.index_range_to, checkedSub, if_pos h]
  · intro h
    have h' : e < b.len := by omega
    simp only [VoodooBuffer.index_range_to_inclusive, checkedSub, if_pos h']

/-- C5 at a concrete input: capacity 16, `end = 3` for both shapes. -/
theorem range_to_underflow_is_error_check :
    bufEx.index_range_to 3 = .error "attempt to subtract with overflow" ∧
    bufEx.index_range_to_inclusive 3 =
      .error "attempt to subtract with overflow" :=
  ⟨(range_to_underflow_is_error bufEx 3).1 (by decide),
   (range_to_underflow_is_error bufEx 3).2 (by decide)⟩

/-- C6: indexing by a range `[a, c)` with `a ≤ c` and `c - a > N` panics
("out of bounds"), in both the immutable and the mutable variant, rather
than returning a slice or an error value. -/
theorem range_over_capacity_errors (b : VoodooBuffer) (a c : Nat)
    (h1 : a ≤ c) (h2 : b.len < c - a) :
    b.index_range a c = .error "out of bounds" ∧
    b.index_range_mut a c = .error "out of bounds" := by
  constructor
  · simp only [VoodooBuffer.index_range]
    rw [if_neg (by omega), if_pos (by omega)]
  · simp only [VoodooBuffer.index_range_mut]
    rw [if_neg (by omega), if_pos (by omega)]

/-- C6 at a concrete input: capacity 16, range `[0, 17)`. -/
theorem range_over_capacity_errors_check :
    bufEx.index_range 0 17 = .error "out of bounds" ∧
    bufEx.index_range_mut 0 17 = .error "out of bounds" :=
  range_over_capacity_errors bufEx 0 17 (by decide) (by decide)

/-- C7: a range `[a, c)` with `a > c` yields a zero-length slice and no
panic, for all values of `a` and `c`, in both variants. -/
theorem empty_range_no_panic (b : VoodooBuffer) (a c : Nat) (h : c < a) :
    (∃ s, b.index_range a c = .ok s ∧ s.bytes.length = 0) ∧
    (∃ s, b.index_range_mut a c = .ok s ∧ s.bytes.length = 0) := by
  refine ⟨⟨⟨0, []⟩, ?_, rfl⟩, ⟨⟨0, []⟩, ?_, rfl⟩⟩
  · simp only [VoodooBuffer.index_range]
    rw [if_pos h]
  · simp only [VoodooBuffer.index_range_mut]
    rw [if_pos h]

/-- C7 at a concrete input: capacity 16, range `[5, 3)`. -/
theorem empty_range_no_panic_check :
    (∃ s, bufEx.index_range 5 3 = .ok s ∧ s.bytes.length = 0) ∧
    (∃ s, bufEx.index_range_mut 5 3 = .ok s ∧ s.bytes.length = 0) :=
  empty_range_no_panic bufEx 5 3 (by decide)

/-- C8: `buf[start..]` returns a slice of length exactly `N` beginning at
base-relative position `start & (N - 1)`, `buf[..]` returns a slice of
length exactly `N` beginning at position `0`, and `len()` returns `N`. -/
theorem range_from_and_full_shapes (b : VoodooBuffer) (hb : b.Valid)
    (s : Nat) :
    (b.index_range_from s).start = s &&& (b.len - 1) ∧
    (b.index_range_from s).bytes.length = b.len ∧
    b.index_range_full.start = 0 ∧
    b.index_range_full.bytes.length = b.len ∧
    b.length = b.len := by
  refine ⟨?_, ?_, rfl, ?_, rfl⟩
  · simp only [VoodooBuffer.index_range_from, VoodooBuffer.as_slice]
    rw [hb.fast_mod_eq, hb.and_mask]
  · simp [VoodooBuffer.index_range_from, VoodooBuffer.as_slice]
  · simp [VoodooBuffer.index_range_full, VoodooBuffer.as_slice]

/-- C8 at a concrete input: capacity 16, `start = 21`. -/
theorem range_from_and_full_shapes_check :
    (bufEx.index_range_from 21).start = 21 &&& (bufEx.len - 1) ∧
    (bufEx.index_range_from 21).bytes.length = bufEx.len ∧
    bufEx.index_range_full.start = 0 ∧
    bufEx.index_range_full.bytes.length = bufEx.len ∧
    bufEx.length = bufEx.len :=
  range_from_and_full_shapes bufEx bufEx_valid 21

/-- C9: for every range shape, the mutable indexing variant computes the
same base-relative start offset and length as the immutable one and fails
exactly when it fails: the results coincide outright. -/
theorem mut_variants_match (b : VoodooBuffer) (a c e s : Nat) :
    b.index_range_mut a c = b.index_range a c ∧
    b.index_range_to_mut e = b.index_range_to e ∧
    b.index_range_to_inclusive_mut e = b.index_range_to_inclusive e ∧
    b.index_range_from_mut s = b.index_range_from s ∧
    b.index_range_full_mut = b.index_range_full :=
  ⟨rfl, rfl, rfl, rfl, rfl⟩

/-- C10: dereferencing the buffer as a byte slice coincides with full-range
indexing `buf[..]` (and mutably with `buf[..]` mutable): a slice of length
`N` starting at base-relative position `0`. -/
theorem deref_matches_full_range (b : VoodooBuffer) :
    b.deref = b.index_range_full ∧
    b.deref_mut = b.index_range_full_mut ∧
    b.deref.start = 0 ∧
    b.deref.bytes.length = b.len :=
  ⟨rfl, rfl, rfl, by simp [VoodooBuffer.deref, VoodooBuffer.as_slice]⟩
